import Mathlib

/-!
# Verification of the scheduler core (DSkrzypiec/scheduler)

Shallow embedding of the repository's DAG model, metadata hashing, generic
state cache and schedule-computation algorithm, together with proofs of the
behavioural properties stated by the specification.

Time instants are modelled as `Int` seconds.  Every concrete timestamp the
repository's test fixtures use lies in October 2023, so instants are encoded
as seconds since 2023-10-01 00:00:00 UTC; `octUTC d h m s` is the instant
`2023-10-<d> <h>:<m>:<s> UTC`.  Go `time.Time` values are only compared,
subtracted and shifted by durations in the embedded code, so this linear
encoding is exact.
-/

namespace Sched

/-- Time instants: seconds since 2023-10-01 00:00:00 UTC (see module header). -/
abbrev Time := Int

/-- One hour, in seconds. -/
def hourS : Time := 3600

/-- One minute, in seconds. -/
def minuteS : Time := 60

/-- The instant `2023-10-<day> <h>:<m>:<s> UTC` in the `Time` encoding. -/
def octUTC (day h m s : Time) : Time := (((day - 1) * 24 + h) * 60 + m) * 60 + s

/-- Modelled from the spec: `dag.FixedSchedule` (its Go source is not under
src/; only its use sites are).  A fixed-interval schedule with a start time;
its occurrences are `Start + k·Interval` for integer `k ≥ 0` (spec §2, §4.2). -/
structure FixedSchedule where
  Start : Time
  Interval : Time
  deriving DecidableEq

/-- Modelled from the spec: the Nth occurrence of a fixed-interval schedule,
`occurrence(n) = Start + n * Interval` (spec §4.2). -/
def FixedSchedule.occurrence (s : FixedSchedule) (n : Nat) : Time :=
  s.Start + (n : Int) * s.Interval

/-- Modelled from the spec: `FixedSchedule.Next` (Go source not under src/).
The earliest schedule occurrence strictly after `t`; this is the value the
`CatchUp=false` branch of the next-schedule computation produces, as pinned by
the expected values of `TestNextScheduleForDagRunsSimple`
(src/unnamed/part_001:16-53). -/
def FixedSchedule.nextAfter (s : FixedSchedule) (t : Time) : Time :=
  if t < s.Start then s.Start
  else s.Start + ((t - s.Start) / s.Interval + 1) * s.Interval

/-- Modelled from the spec: the most recent schedule occurrence at or before
`t` (`none` when `t` is before the start).  Used to state the spec's literal
skip-ahead rule. -/
def FixedSchedule.latestLE (s : FixedSchedule) (t : Time) : Option Time :=
  if t < s.Start then none
  else some (s.Start + ((t - s.Start) / s.Interval) * s.Interval)

/-- Modelled from the spec: the schedule's `String()` form, a stable textual
rendering used as part of the metadata hash (spec §4.2; the Go method is not
under src/).  Semantically equal schedules render equally because this is a
function of the schedule value. -/
def FixedSchedule.render (s : FixedSchedule) : String :=
  toString s.Start ++ "@" ++ toString s.Interval

/-- Modelled from the spec: `timeutils.ToString`, the canonical timestamp
string form (the timeutils package is not under src/); modelled as the decimal
rendering of the instant. -/
def timeToString (t : Time) : String := toString t

/-- Digit-string accumulator for `timeFromString`. -/
def parseDigitsAux : List Char → Nat → Option Nat
  | [], acc => some acc
  | c :: rest, acc =>
    if c.isDigit then parseDigitsAux rest (acc * 10 + (c.toNat - 48))
    else none

/-- Modelled from the spec: `timeutils.FromString`, the canonical-format
timestamp parse (timeutils is not under src/); the partial inverse of
`timeToString` on the canonical strings, failing on any other input. -/
def timeFromString (s : String) : Option Time :=
  match s.data with
  | [] => none
  | c :: rest => (parseDigitsAux (c :: rest) 0).map (fun n => (n : Int))

/-- DAG attributes, from `dag.Attr` (src/unnamed/part_000:26-31). -/
structure Attr where
  CatchUp : Bool
  Tags : List String
  deriving DecidableEq

/-- Modelled from the spec: `dag.Node`, a task-graph vertex owning a task and
an ordered list of child nodes (the Node source file is not under src/; only
the `Dag` methods that consume it are). -/
inductive Node where
  | mk (taskId : String) (children : List Node)

/-- The DAG value, from `dag.Dag` (src/unnamed/part_000:19-24). -/
structure Dag where
  Id : String
  Schedule : Option FixedSchedule
  Attr : Attr
  Root : Option Node

/-- `dag.New` (src/unnamed/part_000:33-37): a DAG with only the id set; the
other fields hold Go zero values. -/
def Dag.New (id : String) : Dag :=
  { Id := id, Schedule := none, Attr := { CatchUp := false, Tags := [] }, Root := none }

/-- `Dag.AddRoot` (src/unnamed/part_000:39-42). -/
def Dag.AddRoot (d : Dag) (n : Node) : Dag := { d with Root := some n }

/-- `Dag.AddSchedule` (src/unnamed/part_000:44-47). -/
def Dag.AddSchedule (d : Dag) (s : FixedSchedule) : Dag := { d with Schedule := some s }

/-- `Dag.AddAttributes` (src/unnamed/part_000:49-52). -/
def Dag.AddAttributes (d : Dag) (a : Sched.Attr) : Dag := { d with Attr := a }

/-- `Dag.Done` (src/unnamed/part_000:54-56): finalizes the builder value. -/
def Dag.Done (d : Dag) : Dag := d

/-- The sentinel string `HashDagMeta` returns when attribute serialization
fails (src/unnamed/part_000:134). -/
def sentinelAttrSerialization : String := "CANNOT SERIALIZE DAG ATTRIBUTES"

/-- `Dag.HashDagMeta` (src/unnamed/part_000:129-148).  SHA-256 and JSON
marshalling are external library calls, abstracted as the `hash` function over
the byte chunks written to the hasher and the fallible `marshal` function; the
source's control flow (sentinel string on marshal failure, empty strings for a
nil schedule) is translated directly. -/
def HashDagMeta (hash : List String → String) (marshal : Sched.Attr → Option String)
    (d : Dag) : String :=
  match marshal d.Attr with
  | none => sentinelAttrSerialization
  | some attrJson =>
    let sched : String :=
      match d.Schedule with
      | none => ""
      | some s => s.render
    let startTsStr : String :=
      match d.Schedule with
      | none => ""
      | some s => timeToString s.Start
    hash [attrJson, sched, startTsStr]

/-- The sentinel literal hashed when a DAG has no tasks
(src/unnamed/part_000:155). -/
def noTasksSentinel : String := "NO TASKS"

/-- `Dag.HashTasks` (src/unnamed/part_000:152-159): with no root, the hash of
the fixed sentinel literal; otherwise the root node's hash (`Node.Hash` is not
under src/, abstracted as `nodeHash`). -/
def HashTasks (hash : List String → String) (nodeHash : Node → String)
    (d : Dag) : String :=
  match d.Root with
  | none => hash [noTasksSentinel]
  | some r => nodeHash r

/-! ## Scheduling algorithm

`nextScheduleForDagRuns`, `shouldBeSheduled` and `tryScheduleDag` live in the
`sched` package whose implementation file is not under src/; only their test
file (src/unnamed/part_001) is.  They are modelled below from spec §4.5,
with every branch checked against the expected values of the tests.  The
persisted dag-run history and the run queue are modelled as lists of
`DagRun` values in insertion order. -/

/-- A materialized DAG run `(DagId, AtTime)` (spec §3; the `sched.DagRun`
declaration is not under src/). -/
structure DagRun where
  DagId : String
  AtTime : Time
  deriving DecidableEq

/-- The timestamp of the most recent persisted run of `dagId` (the maximal
`AtTime` over the rows with that `DagId`), `none` when it has no runs;
this is what the scheduler reads back from `ReadDagRuns` (spec §6). -/
def latestExecTs (runs : List DagRun) (dagId : String) : Option Time :=
  (runs.filter (fun r => r.DagId == dagId)).foldl
    (fun acc r =>
      match acc with
      | none => some r.AtTime
      | some t => some (max t r.AtTime))
    none

/-- Modelled from the spec: `nextScheduleForDagRuns` (spec §4.5; the Go
implementation is not under src/).  Per DAG: a nil schedule maps to a null
next-due value; with no prior runs the next due time is the schedule's start;
with `CatchUp` true it is the last run's timestamp plus one interval.  With
`CatchUp` false the spec's literal wording (latest occurrence ≤ now, see
`nextDueSpecSkipAhead`) is contradicted by `TestNextScheduleForDagRunsSimple`
(src/unnamed/part_001:48 expects `startTs + (dagRuns+1)·hour`), so this model
follows the test: the earliest occurrence strictly after `currentTime`. -/
def nextScheduleForDagRuns (dags : List Dag) (currentTime : Time)
    (runs : List DagRun) : List (String × Option Time) :=
  dags.map (fun d =>
    match d.Schedule with
    | none => (d.Id, none)
    | some sched =>
      match latestExecTs runs d.Id with
      | none => (d.Id, some sched.Start)
      | some lastTs =>
        if d.Attr.CatchUp then (d.Id, some (lastTs + sched.Interval))
        else (d.Id, some (sched.nextAfter currentTime)))

/-- Modelled from the spec: the spec's literal skip-ahead rule, word for word
("the most recent schedule occurrence that is ≤ currentTime but strictly
after the last recorded run", spec §4.5).  Stated separately so that it can
be compared against the test fixture's expected value. -/
def nextDueSpecSkipAhead (s : FixedSchedule) (lastRun currentTime : Time) :
    Option Time :=
  match s.latestLE currentTime with
  | none => none
  | some occ => if lastRun < occ then some occ else none

/-- The scheduler's per-tick state: DAG id → optional next-due timestamp
(`none` standing for Go's nil pointer), as an association list in map order. -/
abbrev NextScheduleMap := List (String × Option Time)

/-- Association-list lookup (the Go map read `m[k]`). -/
def lookupKV {K V : Type} [DecidableEq K] : List (K × V) → K → Option V
  | [], _ => none
  | (k, v) :: rest, key => if k = key then some v else lookupKV rest key

/-- Association-list overwrite of an existing key (the Go map write
`m[k] = v` on a present key). -/
def replaceKV {K V : Type} [DecidableEq K] : List (K × V) → K → V → List (K × V)
  | [], _, _ => []
  | (k, v) :: rest, key, newV =>
    if k = key then (key, newV) :: replaceKV rest key newV
    else (k, v) :: replaceKV rest key newV

/-- Modelled from the spec: the one-step advance `shouldBeSheduled` applies to
the fired DAG's next-due entry — exactly one schedule interval (spec §4.5);
identity when the DAG has no schedule (unreachable on firing in the intended
use, where schedule-less DAGs map to null). -/
def advanceOne (d : Dag) (t : Time) : Time :=
  match d.Schedule with
  | some s => t + s.Interval
  | none => t

/-- Modelled from the spec: `shouldBeSheduled` (spec §4.5; the Go
implementation is not under src/, the name keeps the source's spelling from
its tests).  Fires iff the map holds a non-null next-due value that is ≤
`currentTime`; on firing returns that value as the execution time and
advances the map entry by one interval.  Returns `(fire, execTime, map)`;
the non-firing execution time is Go's zero `time.Time`, encoded 0. -/
def shouldBeSheduled (d : Dag) (m : NextScheduleMap) (currentTime : Time) :
    Bool × Time × NextScheduleMap :=
  match lookupKV m d.Id with
  | none => (false, 0, m)
  | some none => (false, 0, m)
  | some (some ns) =>
    if ns ≤ currentTime then
      (true, ns, replaceKV m d.Id (some (advanceOne d ns)))
    else (false, 0, m)

/-- Errors of the scheduling step's collaborators (store insert conflict,
spec §6; queue capacity, spec §4.4). -/
inductive SchedErr where
  | dagRunExists
  | queueFull
  deriving DecidableEq

/-- Modelled from the spec: `InsertDagRun` (spec §6) — fails if the
`(DagId, AtTime)` pair already exists, else appends the row. -/
def insertDagRun (store : List DagRun) (dr : DagRun) : Except SchedErr (List DagRun) :=
  if store.contains dr then .error .dagRunExists else .ok (store ++ [dr])

/-- Modelled from the spec: the bounded FIFO run queue's `Push` (spec §4.4) —
fails with a capacity error at capacity, else appends. -/
def queuePush (cap : Nat) (q : List DagRun) (dr : DagRun) : Except SchedErr (List DagRun) :=
  if cap ≤ q.length then .error .queueFull else .ok (q ++ [dr])

/-- The state `tryScheduleDag` threads: the run queue, the next-schedule map
and the persisted dag-run rows. -/
structure SchedState where
  queue : List DagRun
  nextMap : NextScheduleMap
  store : List DagRun
  deriving DecidableEq

/-- Modelled from the spec: `tryScheduleDag` (spec §4.5; the Go implementation
is not under src/).  Calls `shouldBeSheduled`; when it fires, persists
`DagRun{DagId, AtTime: dueAt}` via the store and pushes the same `DagRun`
onto the run queue, surfacing any collaborator error. -/
def tryScheduleDag (d : Dag) (currentTime : Time) (cap : Nat)
    (st : SchedState) : Except SchedErr SchedState :=
  match shouldBeSheduled d st.nextMap currentTime with
  | (false, _, m2) => .ok { st with nextMap := m2 }
  | (true, dueAt, m2) =>
    let dr : DagRun := { DagId := d.Id, AtTime := dueAt }
    match insertDagRun st.store dr with
    | .error e => .error e
    | .ok store2 =>
      match queuePush cap st.queue dr with
      | .error e => .error e
      | .ok q2 => .ok { queue := q2, nextMap := m2, store := store2 }

/-- `tryScheduleDag` driven across a sequence of tick timestamps, stopping at
the first collaborator error (mirrors the driving loop of
`TestTryScheduleDagSimple`, src/unnamed/part_001:332-338). -/
def tryScheduleMany (d : Dag) (cap : Nat) : List Time → SchedState →
    Except SchedErr SchedState
  | [], st => .ok st
  | t :: rest, st =>
    match tryScheduleDag d t cap st with
    | .error e => .error e
    | .ok st2 => tryScheduleMany d cap rest st2

/-! ## The generic state cache (src/unnamed/part_000:165-291) -/

/-- The cache's error values, from `ErrCacheKeyExists` and
`ErrCacheKeyDoesNotExist` (src/unnamed/part_000:177-180). -/
inductive CacheError where
  | keyExists
  | keyDoesNotExist
  deriving DecidableEq

/-- `sched.simpleCache` (src/unnamed/part_000:202-205): a key→value store,
modelled as an association list in insertion order (the Go map holds at most
one entry per key, which every operation below preserves).  The mutex is a
concurrency artefact with no sequential content and is not modelled. -/
structure SimpleCache (K V : Type) where
  data : List (K × V)
  deriving DecidableEq

/-- `simpleCache.Add` (src/unnamed/part_000:216-224): error when the key
exists, else insert. -/
def SimpleCache.Add {K V : Type} [DecidableEq K] (c : SimpleCache K V)
    (key : K) (v : V) : Except CacheError (SimpleCache K V) :=
  match lookupKV c.data key with
  | some _ => .error .keyExists
  | none => .ok ⟨c.data ++ [(key, v)]⟩

/-- `simpleCache.Get` (src/unnamed/part_000:228-237). -/
def SimpleCache.Get {K V : Type} [DecidableEq K] (c : SimpleCache K V)
    (key : K) : Except CacheError V :=
  match lookupKV c.data key with
  | some v => .ok v
  | none => .error .keyDoesNotExist

/-- Association-list deletion (the Go map `delete(m, k)`), removing every
entry with the given key. -/
def removeKV {K V : Type} [DecidableEq K] : List (K × V) → K → List (K × V)
  | [], _ => []
  | (k, v) :: rest, key =>
    if k = key then removeKV rest key else (k, v) :: removeKV rest key

/-- `simpleCache.Remove` (src/unnamed/part_000:241-245): Go's `delete`,
a no-op when the key is absent. -/
def SimpleCache.Remove {K V : Type} [DecidableEq K] (c : SimpleCache K V)
    (key : K) : SimpleCache K V :=
  ⟨removeKV c.data key⟩

/-- `simpleCache.Update` (src/unnamed/part_000:249-257): overwrite when the
key exists, else error. -/
def SimpleCache.Update {K V : Type} [DecidableEq K] (c : SimpleCache K V)
    (key : K) (v : V) : Except CacheError (SimpleCache K V) :=
  match lookupKV c.data key with
  | some _ => .ok ⟨replaceKV c.data key v⟩
  | none => .error .keyDoesNotExist

/-- `sched.DagRunTask` cache key `(DagId, AtTime, TaskId)` (spec §3; its
declaration file is not under src/). -/
structure DagRunTask where
  DagId : String
  AtTime : Time
  TaskId : String
  deriving DecidableEq

/-- Modelled from the spec: the DAG-run-task status enumeration (spec §3:
"at minimum: SCHEDULED, RUNNING, SUCCESS, FAILED"; the Go declaration is not
under src/). -/
inductive DagRunTaskStatus where
  | scheduled
  | running
  | success
  | failed
  deriving DecidableEq

/-- `sched.DagRunTaskState` (spec §3): status plus status-update timestamp. -/
structure DagRunTaskState where
  Status : DagRunTaskStatus
  StatusUpdateTs : Time
  deriving DecidableEq

/-- The closed union of cacheable key variants `DagRun | DagRunTask`
(src/unnamed/part_000:182-184), over which `PullFromDatabase` dispatches. -/
inductive CacheKey where
  | dagRun (r : DagRun)
  | dagRunTask (t : DagRunTask)
  deriving DecidableEq

def statusScheduledStr : String := "SCHEDULED"

def statusRunningStr : String := "RUNNING"

def statusSuccessStr : String := "SUCCESS"

def statusFailedStr : String := "FAILED"

/-- Modelled from the spec: `stringToDagRunTaskStatus` (referenced at
src/unnamed/part_000:274 but not defined under src/) — the status strings
round-trip through a parse that fails with an error on unrecognized input
(spec §3), the error carrying the offending string. -/
def stringToDagRunTaskStatus (s : String) : Except String DagRunTaskStatus :=
  if s = statusScheduledStr then .ok .scheduled
  else if s = statusRunningStr then .ok .running
  else if s = statusSuccessStr then .ok .success
  else if s = statusFailedStr then .ok .failed
  else .error s

/-- The errors `PullFromDatabase` can return: a database read error, a status
parse error, a cache conflict, or the unsupported-key-type error of the
default switch case (src/unnamed/part_000:288-290). -/
inductive PullError where
  | dbError (msg : String)
  | statusParse (s : String)
  | cacheErr (e : CacheError)
  | unsupportedKeyType
  deriving DecidableEq

/-- The outcome of one `PullFromDatabase` call: normal return, returned
error, or a runtime panic raised by `timeutils.FromStringMust` on a
non-canonical timestamp string (the panicking conversion at
src/unnamed/part_000:280 — `FromStringMust` itself is not under src/ and its
panic-on-failure behaviour is modelled from its Must naming contract). -/
inductive PullOutcome where
  | ok
  | error (e : PullError)
  | panicked (s : String)
  deriving DecidableEq

/-- The cache instance `PullFromDatabase` serves: task states keyed by the
cacheable key union. -/
abbrev TaskStateCache := SimpleCache CacheKey DagRunTaskState

/-- `simpleCache.PullFromDatabase` (src/unnamed/part_000:261-291), translated
branch for branch.  The database client's `ReadDagRunTaskStatus` is the
abstract `read` collaborator returning `(statusString, statusUpdateTs)`.  For
a `DagRunTask` key: a read error is returned as-is; a status-parse error is
returned as-is; then the value is built with the must-parse timestamp
conversion (panicking on a non-canonical string) and upserted — `Add` when
`Get` reports the key absent, else `Update`.  Any other key variant hits the
default case.  The second component is the cache after the call (unchanged on
every non-`ok` outcome, as in the source where only `Add`/`Update` mutate). -/
def PullFromDatabase (read : DagRunTask → Except String (String × String))
    (c : TaskStateCache) (key : CacheKey) : PullOutcome × TaskStateCache :=
  match key with
  | .dagRunTask drt =>
    match read drt with
    | .error e => (.error (.dbError e), c)
    | .ok (statusStr, statusUpdateTs) =>
      match stringToDagRunTaskStatus statusStr with
      | .error s => (.error (.statusParse s), c)
      | .ok status =>
        match timeFromString statusUpdateTs with
        | none => (.panicked statusUpdateTs, c)
        | some ts =>
          let v : DagRunTaskState := { Status := status, StatusUpdateTs := ts }
          match c.Get key with
          | .error .keyDoesNotExist =>
            match c.Add key v with
            | .ok c2 => (.ok, c2)
            | .error e => (.error (.cacheErr e), c)
          | _ =>
            match c.Update key v with
            | .ok c2 => (.ok, c2)
            | .error e => (.error (.cacheErr e), c)
  | .dagRun _ => (.error .unsupportedKeyType, c)

/-! ## Test fixtures (src/unnamed/part_001)

The concrete values of the scheduler tests, translated into the `Time`
encoding.  `TestNextScheduleForDagRunsSimple` uses `dagRuns = 10` runs at
`startTs + i·hour` and queries at `startTs + 10h45m`, expecting
`startTs + (dagRuns+1)·hour`; the catch-up test uses one run at `startTs`
and queries at 2023-10-10 10:00 UTC, expecting `startTs + 1h`. -/

def nsSimple_dagId : String := "mock_dag"

/-- `time.Date(2023, October, 5, 12, 0, 0, 0, UTC)` (src/unnamed/part_001:25). -/
def nsSimple_startTs : Time := octUTC 5 12 0 0

/-- `dag.FixedSchedule{Interval: 1h, Start: startTs}` (src/unnamed/part_001:26). -/
def nsSimple_sched : FixedSchedule := { Start := nsSimple_startTs, Interval := hourS }

def nsSimple_attr : Attr := { CatchUp := false, Tags := [] }

/-- `emptyDag(dagId, &sched, attr)` (src/unnamed/part_001:28, 379-381). -/
def nsSimple_dag : Dag :=
  (((Dag.New nsSimple_dagId).AddSchedule nsSimple_sched).AddAttributes nsSimple_attr).Done

/-- The 10 inserted runs at `startTs + i·hour`, `i = 0..9`
(src/unnamed/part_001:30-35). -/
def nsSimple_runs : List DagRun :=
  (List.range 10).map
    (fun i => { DagId := nsSimple_dagId, AtTime := nsSimple_startTs + (i : Int) * hourS })

/-- `startTs.Add(10h + 45min)` (src/unnamed/part_001:37). -/
def nsSimple_currentTime : Time := nsSimple_startTs + 10 * hourS + 45 * minuteS

/-- `startTs.Add((dagRuns+1) * time.Hour)` with `dagRuns = 10`
(src/unnamed/part_001:48): the value the test requires
`nextScheduleForDagRuns` to return. -/
def nsSimple_expectedNextSchedule : Time := nsSimple_startTs + (10 + 1) * hourS

def nsCatchUp_dagId : String := "mock_dag"

def nsCatchUp_startTs : Time := octUTC 5 12 0 0

def nsCatchUp_sched : FixedSchedule := { Start := nsCatchUp_startTs, Interval := hourS }

/-- `dag.Attr{CatchUp: true}` (src/unnamed/part_001:66). -/
def nsCatchUp_attr : Attr := { CatchUp := true, Tags := [] }

def nsCatchUp_dag : Dag :=
  (((Dag.New nsCatchUp_dagId).AddSchedule nsCatchUp_sched).AddAttributes nsCatchUp_attr).Done

/-- The single inserted run at `startTs` (src/unnamed/part_001:69-74). -/
def nsCatchUp_runs : List DagRun :=
  (List.range 1).map
    (fun i => { DagId := nsCatchUp_dagId, AtTime := nsCatchUp_startTs + (i : Int) * hourS })

/-- `time.Date(2023, October, 10, 10, 0, 0, 0, UTC)` (src/unnamed/part_001:76). -/
def nsCatchUp_currentTime : Time := octUTC 10 10 0 0

/-- `startTs.Add(1 * time.Hour)` (src/unnamed/part_001:87). -/
def nsCatchUp_expected : Time := nsCatchUp_startTs + 1 * hourS

def trySched_dagId : String := "dag1"

def trySched_sched : FixedSchedule := { Start := octUTC 5 12 0 0, Interval := hourS }

def trySched_attr : Attr := { CatchUp := false, Tags := [] }

/-- `emptyDag("dag1", &sched1, attr)` (src/unnamed/part_001:316). -/
def trySched_d1 : Dag :=
  (((Dag.New trySched_dagId).AddSchedule trySched_sched).AddAttributes trySched_attr).Done

/-- `{d1.Id: &d1ns}` with `d1ns = 2023-10-05 14:00 UTC` (src/unnamed/part_001:318-319). -/
def trySched_initMap : NextScheduleMap := [(trySched_dagId, some (octUTC 5 14 0 0))]

/-- The six driven timestamps (src/unnamed/part_001:322-329). -/
def trySched_times : List Time :=
  [octUTC 5 13 0 0, octUTC 5 14 0 1, octUTC 5 14 59 59,
   octUTC 5 15 1 1, octUTC 5 15 2 0, octUTC 5 16 30 0]

/-- The three expected execution times (src/unnamed/part_001:347-351). -/
def trySched_expectedExecTimes : List Time :=
  [octUTC 5 14 0 0, octUTC 5 15 0 0, octUTC 5 16 0 0]

/-- The three expected dag runs, as both store rows and queue entries. -/
def trySched_expectedRuns : List DagRun :=
  trySched_expectedExecTimes.map (fun t => { DagId := trySched_dagId, AtTime := t })

/-- Empty queue, the initial map, empty dagruns table (src/unnamed/part_001:307-320). -/
def trySched_init : SchedState := { queue := [], nextMap := trySched_initMap, store := [] }

/-- A string that is not in the canonical timestamp format. -/
def badTsStr : String := "not-a-timestamp"

def c6_taskId : String := "task1"

/-- A concrete `DagRunTask` key for the cache counterexamples. -/
def c6_drt : DagRunTask :=
  { DagId := nsSimple_dagId, AtTime := nsSimple_startTs, TaskId := c6_taskId }

def c6_key : CacheKey := .dagRunTask c6_drt

/-- A database read that succeeds with a parseable status and a
non-canonical status-update timestamp string. -/
def c6_read : DagRunTask → Except String (String × String) :=
  fun _ => .ok (statusSuccessStr, badTsStr)

def c6_emptyCache : TaskStateCache := ⟨[]⟩

/-! ## Helper lemmas -/

/-- Looking up a key just appended to an association list that did not
contain it. -/
theorem lookupKV_append_self {K V : Type} [DecidableEq K] (l : List (K × V))
    (k : K) (v : V) (h : lookupKV l k = none) :
    lookupKV (l ++ [(k, v)]) k = some v := by
  induction l with
  | nil => simp [lookupKV]
  | cons p rest ih =>
    obtain ⟨a, b⟩ := p
    by_cases hak : a = k
    · simp [lookupKV, hak] at h
    · simp only [lookupKV, List.cons_append, if_neg hak] at h ⊢
      exact ih h

/-- Looking up a key after overwriting it with `replaceKV`, provided it was
present. -/
theorem lookupKV_replaceKV_self {K V : Type} [DecidableEq K] (l : List (K × V))
    (k : K) (v w : V) (h : lookupKV l k = some w) :
    lookupKV (replaceKV l k v) k = some v := by
  induction l with
  | nil => simp [lookupKV] at h
  | cons p rest ih =>
    obtain ⟨a, b⟩ := p
    by_cases hak : a = k
    · subst hak
      simp [replaceKV, lookupKV]
    · simp only [lookupKV, if_neg hak] at h
      simp only [replaceKV, if_neg hak, lookupKV]
      exact ih h

/-- Deleting an absent key from an association list changes nothing. -/
theorem removeKV_of_lookup_none {K V : Type} [DecidableEq K] (l : List (K × V))
    (k : K) (h : lookupKV l k = none) :
    removeKV l k = l := by
  induction l with
  | nil => rfl
  | cons p rest ih =>
    obtain ⟨a, b⟩ := p
    by_cases hak : a = k
    · simp [lookupKV, hak] at h
    · simp only [lookupKV, if_neg hak] at h
      simp only [removeKV, if_neg hak]
      rw [ih h]

/-! ## The claims -/

/-- C1, counterexample: the spec's literal skip-ahead rule ("most recent
occurrence ≤ currentTime and strictly after the last recorded run") yields
`T0+10h` at the `TestNextScheduleForDagRunsSimple` fixture, but the test
itself (src/unnamed/part_001:48) requires `nextScheduleForDagRuns` to return
`startTs + (dagRuns+1)·hour = T0+11h`, so the claimed return value `T0+10h`
is not the one the repository's code pins. -/
theorem nextScheduleSimple_test_pins_eleventh_hour :
    latestExecTs nsSimple_runs nsSimple_dagId = some (nsSimple_startTs + 9 * hourS)
    ∧ nextDueSpecSkipAhead nsSimple_sched (nsSimple_startTs + 9 * hourS) nsSimple_currentTime
        = some (nsSimple_startTs + 10 * hourS)
    ∧ nsSimple_expectedNextSchedule = nsSimple_startTs + 11 * hourS
    ∧ nsSimple_startTs + 10 * hourS ≠ nsSimple_expectedNextSchedule := by
  refine ⟨by decide, by decide, by decide, by decide⟩

/-- C1 (corrected): at the skip-ahead fixture (hourly schedule from `T0`,
`CatchUp=false`, runs at `T0..T0+9h`, queried at `T0+10h45m`) the
next-schedule computation returns `T0+11h`, the earliest schedule occurrence
strictly after the current time — not the most recent occurrence at or
before it. -/
theorem nextScheduleSimple_fixture_amended :
    nextScheduleForDagRuns [nsSimple_dag] nsSimple_currentTime nsSimple_runs
      = [(nsSimple_dagId, some nsSimple_expectedNextSchedule)]
    ∧ nsSimple_expectedNextSchedule = nsSimple_sched.nextAfter nsSimple_currentTime
    ∧ nsSimple_sched.occurrence 11 = nsSimple_expectedNextSchedule
    ∧ nsSimple_currentTime < nsSimple_expectedNextSchedule
    ∧ (∀ k : Nat, nsSimple_currentTime < nsSimple_sched.occurrence k →
      nsSimple_expectedNextSchedule ≤ nsSimple_sched.occurrence k) := by
  refine ⟨by decide, by decide, by decide, by decide, ?_⟩
  intro k hk
  have hk2 : (427500 : Int) < 388800 + (k : Int) * 3600 := hk
  show (428400 : Int) ≤ 388800 + (k : Int) * 3600
  omega

/-- C2 (confirmed): at the catch-up fixture (hourly schedule from `T0`,
`CatchUp=true`, one recorded run at `T0`) the next-schedule computation
returns `T0+1h` — the last run plus one interval — at every query time
whatsoever, in particular at the test's far-future 2023-10-10 10:00 UTC,
and that value is not the occurrence nearest the test's current time (which
is `T0+118h`). -/
theorem nextScheduleCatchUp_fixture :
    (∀ t : Time, nextScheduleForDagRuns [nsCatchUp_dag] t nsCatchUp_runs
      = [(nsCatchUp_dagId, some nsCatchUp_expected)])
    ∧ nsCatchUp_expected = nsCatchUp_startTs + 1 * hourS
    ∧ latestExecTs nsCatchUp_runs nsCatchUp_dagId = some nsCatchUp_startTs
    ∧ nsCatchUp_expected = nsCatchUp_startTs + nsCatchUp_sched.Interval
    ∧ nsCatchUp_sched.latestLE nsCatchUp_currentTime
        = some (nsCatchUp_startTs + 118 * hourS)
    ∧ nsCatchUp_expected ≠ nsCatchUp_startTs + 118 * hourS := by
  exact ⟨fun _ => rfl, by decide, by decide, by decide, by decide, by decide⟩

/-- C3 (confirmed): `shouldBeSheduled` fires iff the next-schedule map holds
a non-null entry for the DAG at or before the current time (so a call exactly
at the due timestamp fires); on firing it returns the old entry as the
execution time and advances that entry by exactly one schedule interval; a
DAG absent from the map, mapped to null, or not yet due never fires and the
map is unchanged. -/
theorem shouldBeSheduled_contract (d : Dag) (m : NextScheduleMap) (t : Time) :
    ((shouldBeSheduled d m t).1 = true ↔
      ∃ ns, lookupKV m d.Id = some (some ns) ∧ ns ≤ t)
    ∧ (∀ ns s, lookupKV m d.Id = some (some ns) → ns ≤ t → d.Schedule = some s →
      shouldBeSheduled d m t
        = (true, ns, replaceKV m d.Id (some (ns + s.Interval))))
    ∧ (∀ ns, lookupKV m d.Id = some (some ns) → ns ≤ t →
      lookupKV (shouldBeSheduled d m t).2.2 d.Id = some (some (advanceOne d ns)))
    ∧ (lookupKV m d.Id = some (some t) → (shouldBeSheduled d m t).1 = true)
    ∧ (lookupKV m d.Id = none → shouldBeSheduled d m t = (false, 0, m))
    ∧ (lookupKV m d.Id = some none → shouldBeSheduled d m t = (false, 0, m))
    ∧ (∀ ns, lookupKV m d.Id = some (some ns) → t < ns →
      shouldBeSheduled d m t = (false, 0, m)) := by
  have hfirecase : ∀ ns, lookupKV m d.Id = some (some ns) → ns ≤ t →
      shouldBeSheduled d m t
        = (true, ns, replaceKV m d.Id (some (advanceOne d ns))) := by
    intro ns hl hle
    unfold shouldBeSheduled
    rw [hl]
    simp [hle]
  have hnonecase : lookupKV m d.Id = none →
      shouldBeSheduled d m t = (false, 0, m) := by
    intro hl
    unfold shouldBeSheduled
    rw [hl]
  have hnullcase : lookupKV m d.Id = some none →
      shouldBeSheduled d m t = (false, 0, m) := by
    intro hl
    unfold shouldBeSheduled
    rw [hl]
  have hlatecase : ∀ ns, lookupKV m d.Id = some (some ns) → ¬ ns ≤ t →
      shouldBeSheduled d m t = (false, 0, m) := by
    intro ns hl hnle
    unfold shouldBeSheduled
    rw [hl]
    simp [hnle]
  refine ⟨⟨?_, ?_⟩, ?_, ?_, ?_, hnonecase, hnullcase,
    fun ns hl hlt => hlatecase ns hl (not_le.mpr hlt)⟩
  · intro hfire
    rcases hl : lookupKV m d.Id with _ | ons
    · rw [hnonecase hl] at hfire
      simp at hfire
    · rcases ons with _ | ns
      · rw [hnullcase hl] at hfire
        simp at hfire
      · by_cases hle : ns ≤ t
        · refine ⟨ns, ?_, hle⟩
          simp [hl]
        · rw [hlatecase ns hl hle] at hfire
          simp at hfire
  · rintro ⟨ns, hl, hle⟩
    rw [hfirecase ns hl hle]
  · intro ns s hl hle hs
    rw [hfirecase ns hl hle]
    simp [advanceOne, hs]
  · intro ns hl hle
    rw [hfirecase ns hl hle]
    exact lookupKV_replaceKV_self m d.Id _ _ hl
  · intro hl
    have : (t : Time) ≤ t := le_refl t
    rw [hfirecase t hl this]

/-- C4 (confirmed): driving `tryScheduleDag` for the hourly DAG (next due
14:00) across the six test timestamps produces exactly 3 persisted dag runs
and exactly 3 queue entries, the queue and the store holding the same
`DagRun` values, with `AtTime` equal to the crossed hour boundaries 14:00,
15:00, 16:00 in increasing order (and the map left at 17:00). -/
theorem tryScheduleDag_fixture :
    tryScheduleMany trySched_d1 100 trySched_times trySched_init
      = Except.ok { queue := trySched_expectedRuns,
                    nextMap := [(trySched_dagId, some (octUTC 5 17 0 0))],
                    store := trySched_expectedRuns }
    ∧ trySched_expectedRuns.length = 3
    ∧ trySched_expectedRuns.map (fun r => r.AtTime) = trySched_expectedExecTimes
    ∧ octUTC 5 14 0 0 < octUTC 5 15 0 0 ∧ octUTC 5 15 0 0 < octUTC 5 16 0 0 := by
  exact ⟨rfl, by decide, by decide, by decide, by decide⟩

/-- C5 (code bug): when attribute serialization fails, `HashDagMeta` as
implemented returns the fixed sentinel string "CANNOT SERIALIZE DAG
ATTRIBUTES" as its result instead of reporting a hashing error — the
behaviour the spec flags as a defect (§7, §9). -/
theorem hashDagMeta_sentinel_on_marshal_failure (hash : List String → String)
    (marshal : Sched.Attr → Option String) (d : Dag)
    (h : marshal d.Attr = none) :
    HashDagMeta hash marshal d = sentinelAttrSerialization := by
  simp [HashDagMeta, h]

/-- C5, witness: the sentinel-string return evaluated at a concrete DAG with
a failing marshaller. -/
theorem hashDagMeta_sentinel_eval :
    HashDagMeta (fun l => String.join l) (fun _ => none)
      ((Dag.New nsSimple_dagId).Done) = sentinelAttrSerialization :=
  hashDagMeta_sentinel_on_marshal_failure _ _ _ rfl

/-- C6, counterexample: with a database read that succeeds and a status
string that parses, but a status-update timestamp not in the canonical
format, `PullFromDatabase` neither returns an error nor upserts — it panics
(via the must-parse conversion) with the cache unchanged, so "otherwise it
upserts" does not hold unconditionally. -/
theorem pullFromDatabase_bad_timestamp_cex :
    PullFromDatabase c6_read c6_emptyCache c6_key
      = (.panicked badTsStr, c6_emptyCache)
    ∧ c6_read c6_drt = .ok (statusSuccessStr, badTsStr)
    ∧ stringToDagRunTaskStatus statusSuccessStr = .ok .success
    ∧ timeFromString badTsStr = none
    ∧ lookupKV c6_emptyCache.data c6_key = none := by
  refine ⟨by decide, rfl, rfl, by decide, rfl⟩

/-- C6 (corrected): `PullFromDatabase` on a `DagRunTask` key returns the
database read error or the status-parse error unchanged with the cache left
as it was; when the read and the parse succeed and the status-update
timestamp is canonical it upserts the parsed `DagRunTaskState` (`Add` when
the key is absent, `Update` when present) and a subsequent `Get` returns
the new state; any non-`DagRunTask` key fails with the unsupported-key-type
error and leaves the cache unchanged. -/
theorem pullFromDatabase_contract
    (read : DagRunTask → Except String (String × String))
    (c : TaskStateCache) (drt : DagRunTask) :
    (∀ e, read drt = .error e →
      PullFromDatabase read c (.dagRunTask drt) = (.error (.dbError e), c))
    ∧ (∀ ss ts e, read drt = .ok (ss, ts) →
      stringToDagRunTaskStatus ss = .error e →
      PullFromDatabase read c (.dagRunTask drt) = (.error (.statusParse e), c))
    ∧ (∀ ss ts st tsv, read drt = .ok (ss, ts) →
      stringToDagRunTaskStatus ss = .ok st →
      timeFromString ts = some tsv →
      lookupKV c.data (CacheKey.dagRunTask drt) = none →
      PullFromDatabase read c (.dagRunTask drt)
          = (.ok, ⟨c.data ++ [(CacheKey.dagRunTask drt, ⟨st, tsv⟩)]⟩)
        ∧ SimpleCache.Get
            (⟨c.data ++ [(CacheKey.dagRunTask drt, ⟨st, tsv⟩)]⟩ : TaskStateCache)
            (CacheKey.dagRunTask drt) = .ok ⟨st, tsv⟩)
    ∧ (∀ ss ts st tsv w, read drt = .ok (ss, ts) →
      stringToDagRunTaskStatus ss = .ok st →
      timeFromString ts = some tsv →
      lookupKV c.data (CacheKey.dagRunTask drt) = some w →
      PullFromDatabase read c (.dagRunTask drt)
          = (.ok, ⟨replaceKV c.data (CacheKey.dagRunTask drt) ⟨st, tsv⟩⟩)
        ∧ SimpleCache.Get
            (⟨replaceKV c.data (CacheKey.dagRunTask drt) ⟨st, tsv⟩⟩ : TaskStateCache)
            (CacheKey.dagRunTask drt) = .ok ⟨st, tsv⟩)
    ∧ (∀ r, PullFromDatabase read c (.dagRun r)
        = (.error .unsupportedKeyType, c)) := by
  refine ⟨?_, ?_, ?_, ?_, fun r => rfl⟩
  · intro e hread
    simp [PullFromDatabase, hread]
  · intro ss ts e hread hparse
    simp [PullFromDatabase, hread, hparse]
  · intro ss ts st tsv hread hparse hts hlook
    constructor
    · simp [PullFromDatabase, hread, hparse, hts, SimpleCache.Get,
        SimpleCache.Add, hlook]
    · simp [SimpleCache.Get, lookupKV_append_self c.data _ _ hlook]
  · intro ss ts st tsv w hread hparse hts hlook
    constructor
    · simp [PullFromDatabase, hread, hparse, hts, SimpleCache.Get,
        SimpleCache.Update, hlook]
    · simp [SimpleCache.Get, lookupKV_replaceKV_self c.data _ _ _ hlook]

/-- C7 (confirmed): `simpleCache` round-trip and absent-key behaviour — on
an absent key `Add` succeeds and a subsequent `Get` returns exactly the
added value; on a present key `Add` fails with the key-exists error and the
stored value is untouched; `Get` and `Update` on an absent key fail with the
key-not-found error; `Remove` on an absent key is a no-op leaving the cache
unchanged. -/
theorem simpleCache_ops_contract {K V : Type} [DecidableEq K]
    (c : SimpleCache K V) (k : K) (v : V) :
    (lookupKV c.data k = none →
      c.Add k v = .ok ⟨c.data ++ [(k, v)]⟩
        ∧ SimpleCache.Get (⟨c.data ++ [(k, v)]⟩ : SimpleCache K V) k = .ok v)
    ∧ (∀ w, lookupKV c.data k = some w →
      c.Add k v = .error .keyExists ∧ c.Get k = .ok w)
    ∧ (lookupKV c.data k = none → c.Get k = .error .keyDoesNotExist)
    ∧ (lookupKV c.data k = none → c.Update k v = .error .keyDoesNotExist)
    ∧ (lookupKV c.data k = none → c.Remove k = c) := by
  refine ⟨fun h => ⟨?_, ?_⟩, fun w h => ⟨?_, ?_⟩, fun h => ?_, fun h => ?_,
    fun h => ?_⟩
  · simp [SimpleCache.Add, h]
  · simp [SimpleCache.Get, lookupKV_append_self c.data k v h]
  · simp [SimpleCache.Add, h]
  · simp [SimpleCache.Get, h]
  · simp [SimpleCache.Get, h]
  · simp [SimpleCache.Update, h]
  · simp [SimpleCache.Remove, removeKV_of_lookup_none c.data k h]

/-- C8 (confirmed): `HashDagMeta` is a pure function of `(Attr, Schedule)` —
two DAGs with equal attributes and equal schedules hash identically whatever
their task trees, and the builder steps' order (and whether a root was ever
attached) cannot change the hash. -/
theorem hashDagMeta_pure_in_attr_schedule (hash : List String → String)
    (marshal : Sched.Attr → Option String) (d1 d2 : Dag) :
    (d1.Attr = d2.Attr → d1.Schedule = d2.Schedule →
      HashDagMeta hash marshal d1 = HashDagMeta hash marshal d2)
    ∧ (∀ i sched a root,
      HashDagMeta hash marshal
          ((((Dag.New i).AddRoot root).AddSchedule sched).AddAttributes a).Done
        = HashDagMeta hash marshal
          (((Dag.New i).AddSchedule sched).AddAttributes a).Done)
    ∧ (∀ i sched a,
      HashDagMeta hash marshal
          (((Dag.New i).AddSchedule sched).AddAttributes a).Done
        = HashDagMeta hash marshal
          (((Dag.New i).AddAttributes a).AddSchedule sched).Done) := by
  refine ⟨fun h1 h2 => ?_, fun i sched a root => rfl, fun i sched a => rfl⟩
  unfold HashDagMeta
  rw [h1, h2]

/-- C9 (confirmed): `HashTasks` on a rootless DAG always succeeds and
returns the fixed hash of the sentinel literal "NO TASKS"; any two rootless
DAGs therefore produce the same `HashTasks` value. -/
theorem hashTasks_no_root_sentinel (hash : List String → String)
    (nodeHash : Node → String) (d1 d2 : Dag) :
    (d1.Root = none → HashTasks hash nodeHash d1 = hash [noTasksSentinel])
    ∧ (d1.Root = none → d2.Root = none →
      HashTasks hash nodeHash d1 = HashTasks hash nodeHash d2) := by
  constructor
  · intro h
    simp [HashTasks, h]
  · intro h1 h2
    simp [HashTasks, h1, h2]

/-- C10 (confirmed): when the database read succeeds and the status string
parses but the returned status-update timestamp is not in the canonical
format, `PullFromDatabase` panics via the must-parse conversion — it never
surfaces the timestamp failure as a returned error, unlike a status-parse
failure, which is returned as a recoverable error. -/
theorem pullFromDatabase_timestamp_panic
    (read : DagRunTask → Except String (String × String))
    (c : TaskStateCache) (drt : DagRunTask) (ss ts : String)
    (st : DagRunTaskStatus) :
    (read drt = .ok (ss, ts) → stringToDagRunTaskStatus ss = .ok st →
      timeFromString ts = none →
      PullFromDatabase read c (.dagRunTask drt) = (.panicked ts, c)
        ∧ ∀ e, (PullFromDatabase read c (.dagRunTask drt)).1 ≠ PullOutcome.error e)
    ∧ (∀ e, read drt = .ok (ss, ts) → stringToDagRunTaskStatus ss = .error e →
      PullFromDatabase read c (.dagRunTask drt) = (.error (.statusParse e), c)) := by
  constructor
  · intro hread hparse hts
    have hmain : PullFromDatabase read c (.dagRunTask drt) = (.panicked ts, c) := by
      simp [PullFromDatabase, hread, hparse, hts]
    refine ⟨hmain, fun e => ?_⟩
    rw [hmain]
    simp
  · intro e hread hparse
    simp [PullFromDatabase, hread, hparse]

end Sched
